import Mathlib

/-!
Shallow embedding of the SRCS volunteer management application
(React + Supabase/PostgREST front end, `database-schema.sql` storage).

Tables are modelled as Lean lists of typed rows; each Supabase query made
by the components under verification is translated into a pure function
over those lists, including the storage-level behaviours that decide the
claims: the `UNIQUE(event_id, volunteer_id)` constraint on
`event_participants`, row-level-security filtering of updates on
`notifications`, PostgREST left-join embedding semantics, `order`,
`limit`, and client-side aggregation.
-/

/-- The `event_participants.status` enum from `database-schema.sql`:
`CHECK (status IN ('joined', 'attended', 'cancelled'))`. -/
inductive PStatus where
  | joined
  | attended
  | cancelled
deriving DecidableEq

/-- A row of `event_participants` (`database-schema.sql` lines 44-53).
`hours INTEGER DEFAULT 0` is nullable, hence `Option Int`.
Timestamps are epoch milliseconds. -/
structure Participation where
  event_id : Nat
  volunteer_id : Nat
  status : PStatus
  hours : Option Int
  created_at : Int
deriving DecidableEq

/-- A row of `events`. -/
structure Event where
  id : Nat
  title : String
  description : String
  date : Int
  location : String
  created_by : Nat
deriving DecidableEq

/-- The `users.role` enum: `CHECK (role IN ('volunteer', 'admin'))`. -/
inductive Role where
  | volunteer
  | admin
deriving DecidableEq

/-- A row of `users`; `name TEXT` is nullable. -/
structure UserRow where
  id : Nat
  email : String
  name : Option String
  role : Role
deriving DecidableEq

/-- A row of `notifications`. -/
structure Notification where
  id : Nat
  user_id : Nat
  message : String
  read_status : Bool
  created_at : Int
deriving DecidableEq

/-! Ordering relations used by the `order(...)` query clauses. -/

/-- Relation for `order('date', { ascending: false })` on events. -/
def dateDesc (a b : Event) : Prop := b.date ≤ a.date

instance : DecidableRel dateDesc := fun a b => inferInstanceAs (Decidable (b.date ≤ a.date))

instance : IsTotal Event dateDesc := ⟨fun a b => le_total b.date a.date⟩

instance : IsTrans Event dateDesc := ⟨fun _ _ _ hab hbc => le_trans hbc hab⟩

/-- Relation for `order('date', { ascending: true })` on events. -/
def dateAsc (a b : Event) : Prop := a.date ≤ b.date

instance : DecidableRel dateAsc := fun a b => inferInstanceAs (Decidable (a.date ≤ b.date))

/-- Relation for `order('created_at', { ascending: false })` on notifications: newest first. -/
def newerFirst (a b : Notification) : Prop := b.created_at ≤ a.created_at

instance : DecidableRel newerFirst := fun a b => inferInstanceAs (Decidable (b.created_at ≤ a.created_at))

instance : IsTotal Notification newerFirst := ⟨fun a b => le_total b.created_at a.created_at⟩

instance : IsTrans Notification newerFirst := ⟨fun _ _ _ hab hbc => le_trans hbc hab⟩

/-- Relation for `order('name', { ascending: true })` on users; `name` is nullable and
nulls sort last under Postgres ascending order. -/
def nameAsc (a b : UserRow) : Prop :=
  match a.name, b.name with
  | some x, some y => x ≤ y
  | some _, none => True
  | none, some _ => False
  | none, none => True

instance : DecidableRel nameAsc := fun a b => by
  unfold nameAsc
  cases a.name <;> cases b.name <;> infer_instance

/-! Participation Ledger operations (EventsScreen, `src/unnamed/part_001`). -/

/-- Row-count of `event_participants` rows embedded under one event:
this is what every `participant_count` in the app is computed from
(`event.event_participants?.length`). -/
def participantCount (ps : List Participation) (e : Nat) : Nat :=
  (ps.filter fun p => p.event_id == e).length

/-- Insert error surfaced by the storage layer on `handleJoinEvent`:
the `UNIQUE(event_id, volunteer_id)` constraint rejects a second row for
the same pair, whatever its `status`. -/
inductive JoinError where
  | alreadyJoined
deriving DecidableEq

/-- Operation `handleJoinEvent` (`src/unnamed/part_001` lines 313-339): inserts a row
`{ event_id, volunteer_id, status: 'joined' }`; schema defaults fill
`hours = 0` and `created_at = now`.  The insert fails exactly when the
storage uniqueness constraint finds an existing row for the pair. -/
def joinEvent (ps : List Participation) (e v : Nat) (now : Int) :
    Except JoinError (List Participation) :=
  if ps.any fun p => p.event_id == e && p.volunteer_id == v then
    .error .alreadyJoined
  else
    .ok (ps ++ [{ event_id := e, volunteer_id := v, status := .joined,
                  hours := some 0, created_at := now }])

/-- Operation `handleLeaveEvent` (`src/unnamed/part_001` lines 341-363): deletes the
rows matching `event_id = e` and `volunteer_id = v`; a delete matching no
rows is a silent success under PostgREST. -/
def leaveEvent (ps : List Participation) (e v : Nat) : List Participation :=
  ps.filter fun p => !(p.event_id == e && p.volunteer_id == v)

/-! Aggregation and reporting (AdminScreen.tsx). -/

/-- One record of the admin event report. -/
structure EventReport where
  id : Nat
  title : String
  date : Int
  location : String
  participant_count : Nat
  attended_count : Nat
deriving DecidableEq

/-- Query `fetchEventReports` (AdminScreen.tsx lines 99-131): events with
embedded `event_participants(volunteer_id, status)`, ordered by `date`
descending, `limit(10)`; `participant_count` is the length of the
embedded row list and `attended_count` the length of its
`status === 'attended'` sublist. -/
def fetchEventReports (events : List Event) (ps : List Participation) :
    List EventReport :=
  ((List.insertionSort dateDesc events).take 10).map fun ev =>
    let embedded := ps.filter fun p => p.event_id == ev.id
    { id := ev.id
      title := ev.title
      date := ev.date
      location := ev.location
      participant_count := embedded.length
      attended_count := (embedded.filter fun p => p.status == PStatus.attended).length }

/-- One processed event of the volunteer-facing events list. -/
structure EventView where
  id : Nat
  title : String
  description : String
  date : Int
  location : String
  created_by : Nat
  participant_count : Nat
  is_joined : Bool
deriving DecidableEq

/-- Query `fetchEvents` with `filter === 'all'` (`src/unnamed/part_001` lines
263-311): all events ordered by date ascending, each carrying its full
embedded `event_participants!left(volunteer_id, status)` list;
`participant_count` is its length and `is_joined` whether it holds a
`status === 'joined'` row of the current user. -/
def fetchEventsAll (events : List Event) (ps : List Participation) (uid : Nat) :
    List EventView :=
  (List.insertionSort dateAsc events).map fun ev =>
    let embedded := ps.filter fun p => p.event_id == ev.id
    { id := ev.id
      title := ev.title
      description := ev.description
      date := ev.date
      location := ev.location
      created_by := ev.created_by
      participant_count := embedded.length
      is_joined := embedded.any fun p =>
        p.volunteer_id == uid && p.status == PStatus.joined }

/-- Query `fetchEvents` with `filter === 'joined'`: the two `.eq` filters on
`event_participants.volunteer_id` / `.status` apply to the embedded rows
of the `!left` join only — PostgREST still returns every parent event,
with the embedded list restricted to the current user's
`status === 'joined'` rows (possibly empty). -/
def fetchEventsJoined (events : List Event) (ps : List Participation) (uid : Nat) :
    List EventView :=
  (List.insertionSort dateAsc events).map fun ev =>
    let embedded := ps.filter fun p =>
      p.event_id == ev.id && p.volunteer_id == uid && p.status == PStatus.joined
    { id := ev.id
      title := ev.title
      description := ev.description
      date := ev.date
      location := ev.location
      created_by := ev.created_by
      participant_count := embedded.length
      is_joined := embedded.any fun p =>
        p.volunteer_id == uid && p.status == PStatus.joined }

/-- The attendance rate used by AdminScreen's badges:
`attended_count / participant_count`, guarded so that an event with zero
participants reads as rate `0` (the `participant_count === 0` branch is
taken before any division). -/
def attendanceRate (participant_count attended_count : Nat) : ℚ :=
  if 0 < participant_count then (attended_count : ℚ) / participant_count else 0

/-- AdminScreen.tsx lines 332-339 and 398-411:
`participant_count > 0 ? Math.round((attended_count / participant_count) * 100) : 0`;
`Math.round` rounds half away from zero upward, which on non-negative
inputs is Mathlib's `round`. -/
def attendancePercent (participant_count attended_count : Nat) : ℤ :=
  if 0 < participant_count then
    round (((attended_count : ℚ) / participant_count) * 100)
  else 0

/-- JS `a || b` on a nullable string: `null` and `''` fall through to `b`. -/
def jsOr (a : Option String) (b : String) : String :=
  match a with
  | some s => if s == "" then b else s
  | none => b

/-- The `sum + (p.hours || 0)` accumulation of `fetchVolunteerReports`. -/
def sumHours (l : List Participation) : Int :=
  l.foldl (fun s p => s + p.hours.getD 0) 0

/-- The `Math.max(...participations.map(p => new Date(p.created_at).getTime()))`
over a non-empty list; `0` for the empty list (the code guards with
`participations.length > 0 ? ... : 0`). -/
def lastActivityOf (l : List Participation) : Int :=
  match l.map fun p => p.created_at with
  | [] => 0
  | t :: ts => ts.foldl max t

/-- One record of the admin volunteer report; `last_activity` is `none`
where the code keeps `''` and later renders `'Never'`. -/
structure VolunteerReport where
  id : Nat
  name : String
  email : String
  total_events : Nat
  total_hours : Int
  last_activity : Option Int
deriving DecidableEq

/-- Query `fetchVolunteerReports` (AdminScreen.tsx lines 133-176): users with
`role = 'volunteer'` ordered by name ascending, each with its embedded
`event_participants(id, hours, created_at)` list (no status filter);
`total_events` is the list length, `total_hours` the `|| 0` sum of hours,
and `last_activity` the max `created_at`, kept only when positive. -/
def fetchVolunteerReports (users : List UserRow) (ps : List Participation) :
    List VolunteerReport :=
  (List.insertionSort nameAsc (users.filter fun u => u.role == Role.volunteer)).map
    fun u =>
      let parts := ps.filter fun p => p.volunteer_id == u.id
      let lastActivity : Int := if parts.isEmpty then 0 else lastActivityOf parts
      { id := u.id
        name := jsOr u.name u.email
        email := u.email
        total_events := parts.length
        total_hours := sumHours parts
        last_activity := if 0 < lastActivity then some lastActivity else none }

/-- Query `fetchStats` (AdminScreen.tsx lines 80-86): volunteer ids of
`event_participants` rows with
`created_at >= now - 30 * 24 * 60 * 60 * 1000`. -/
def activeVolunteerIds (ps : List Participation) (now : Int) : List Nat :=
  (ps.filter fun p => now - 30 * 24 * 60 * 60 * 1000 ≤ p.created_at).map
    fun p => p.volunteer_id

/-- The `new Set(activeVolunteersData.map(p => p.volunteer_id)).size`:
the number of distinct ids in the 30-day window. -/
def activeVolunteers (ps : List Participation) (now : Int) : Nat :=
  (activeVolunteerIds ps now).dedup.length

/-! Notification Channel (NotificationContext.tsx). -/

/-- Error channel of a notifications write; under row-level security a
disallowed `UPDATE` silently matches zero rows instead of producing this
error, so `markAsRead` below never returns it. -/
inductive DbError where
  | forbidden
deriving DecidableEq

/-- Operation `markAsRead` (NotificationContext.tsx lines 118-135):
`update({ read_status: true }).eq('id', notificationId)`, executed under
the RLS policy `USING (auth.uid() = user_id)`: only rows whose `id`
matches and whose recipient is the acting user are updated; rows filtered
out by RLS are skipped without any error. -/
def markAsRead (ns : List Notification) (nid actor : Nat) :
    Except DbError (List Notification) :=
  .ok (ns.map fun n =>
    if n.id == nid && n.user_id == actor then { n with read_status := true } else n)

/-- Query `fetchNotifications` (NotificationContext.tsx lines 39-59): the acting
user's notifications, newest first, `limit(50)`. -/
def fetchNotifications (ns : List Notification) (uid : Nat) : List Notification :=
  (List.insertionSort newerFirst (ns.filter fun n => n.user_id == uid)).take 50

/-- Derived `unreadCount` (NotificationContext.tsx line 30): computed over the
fetched in-memory list, not over the table. -/
def unreadCount (ns : List Notification) : Nat :=
  (ns.filter fun n => !n.read_status).length

/-- The table-level number of a user's unread notifications, for
comparison with `unreadCount` of the fetched window. -/
def trueUnreadCount (ns : List Notification) (uid : Nat) : Nat :=
  (ns.filter fun n => n.user_id == uid && !n.read_status).length

/-- A concrete notifications table: 51 unread notifications of user 0
with increasing timestamps, exercising the `limit(50)` window. -/
def manyUnread : List Notification :=
  (List.range 51).map fun i => ⟨i, 0, "m", false, (i : Int)⟩

/-! Helper lemmas. -/

/-- A filter dropping the rows of one (event, volunteer) pair is an `erase`
of the pair's row when the storage uniqueness invariant (at most one row
per pair) holds. -/
theorem filter_not_pair_eq_erase (e v : Nat) :
    ∀ (ps : List Participation) (r : Participation), r ∈ ps →
      r.event_id = e → r.volunteer_id = v →
      ps.countP (fun p => p.event_id == e && p.volunteer_id == v) ≤ 1 →
      ps.filter (fun p => !(p.event_id == e && p.volunteer_id == v)) = ps.erase r := by
  intro ps
  induction ps with
  | nil => intro r hr; cases hr
  | cons p t ih =>
    intro r hr h1 h2 hu
    have hrpair : (r.event_id == e && r.volunteer_id == v) = true := by simp [h1, h2]
    rw [List.countP_cons] at hu
    by_cases hp : (p.event_id == e && p.volunteer_id == v) = true
    · have ht0 : t.countP (fun p => p.event_id == e && p.volunteer_id == v) = 0 := by
        simp only [hp, if_true] at hu; omega
      have htnone : ∀ q ∈ t, (q.event_id == e && q.volunteer_id == v) = false := by
        intro q hq
        have := List.countP_eq_zero.mp ht0 q hq
        simpa using this
      have hrp : r = p := by
        rcases List.mem_cons.mp hr with h | h
        · exact h
        · exact absurd hrpair (by simp [htnone r h])
      subst hrp
      rw [List.filter_cons_of_neg (by simp [hp]), List.erase_cons_head]
      exact List.filter_eq_self.mpr fun q hq => by simp [htnone q hq]
    · have hne : r ≠ p := fun h => hp (h ▸ hrpair)
      have hrt : r ∈ t := by
        rcases List.mem_cons.mp hr with h | h
        · exact absurd h hne
        · exact h
      have hut : t.countP (fun p => p.event_id == e && p.volunteer_id == v) ≤ 1 := by
        rw [if_neg (by simp [hp])] at hu
        omega
      rw [List.filter_cons_of_pos (by simp [hp]),
        List.erase_cons_tail (by simpa using Ne.symm hne), ih r hrt h1 h2 hut]

/-- Mapping a function over a list relates the image to the list
pointwise. -/
theorem forall₂_map_self {α β : Type} (f : α → β) (P : β → α → Prop) :
    ∀ l : List α, (∀ a ∈ l, P (f a) a) → List.Forall₂ P (l.map f) l := by
  intro l
  induction l with
  | nil => intro _; exact List.Forall₂.nil
  | cons a t ih =>
    intro h
    exact List.Forall₂.cons (h a (List.mem_cons_self a t))
      (ih fun b hb => h b (List.mem_cons_of_mem a hb))

/-! Claim theorems. -/

/-- C2 (amended): after a successful `joinEvent` the participant count of
the event grows by exactly one, and a second join of the same pair fails
with `AlreadyJoined`; the insert is rejected with `AlreadyJoined` exactly
when a row of ANY status (cancelled included) already exists for the
(event, volunteer) pair — the storage-level `UNIQUE(event_id,
volunteer_id)` constraint ignores the status column. -/
theorem join_once_then_already_joined :
    (∀ (ps : List Participation) (e v : Nat) (now : Int) (ps' : List Participation),
      joinEvent ps e v now = .ok ps' →
      participantCount ps' e = participantCount ps e + 1) ∧
    (∀ (ps : List Participation) (e v : Nat) (now now' : Int) (ps' : List Participation),
      joinEvent ps e v now = .ok ps' →
      joinEvent ps' e v now' = .error .alreadyJoined) ∧
    (∀ (ps : List Participation) (e v : Nat) (now : Int),
      joinEvent ps e v now = .error .alreadyJoined ↔
        ∃ p ∈ ps, p.event_id = e ∧ p.volunteer_id = v) := by
  refine ⟨?_, ?_, ?_⟩
  · intro ps e v now ps' h
    unfold joinEvent at h
    split at h
    · exact absurd h (by simp)
    · rw [Except.ok.injEq] at h
      subst h
      unfold participantCount
      simp [List.filter_append]
  · intro ps e v now now' ps' h
    unfold joinEvent at h
    split at h
    · exact absurd h (by simp)
    · rw [Except.ok.injEq] at h
      subst h
      unfold joinEvent
      rw [if_pos (by simp [List.any_append])]
  · intro ps e v now
    unfold joinEvent
    split
    · rename_i h
      simp only [true_iff]
      simpa [List.any_eq_true] using h
    · rename_i h
      constructor
      · intro h'; exact absurd h' (by simp)
      · intro ⟨p, hp, he, hv⟩
        exact absurd (List.any_eq_true.mpr ⟨p, hp, by simp [he, hv]⟩) h

/-- Witness for C2 at a concrete input: joining an empty ledger adds one
participant to the event. -/
theorem join_once_then_already_joined_witness :
    participantCount [(⟨0, 0, PStatus.joined, some 0, 0⟩ : Participation)] 0
      = participantCount ([] : List Participation) 0 + 1 :=
  join_once_then_already_joined.1 [] 0 0 0 _ rfl

/-- C2 as stated is refuted: with a single CANCELLED row for the pair no
non-cancelled row exists, yet the insert is still rejected with
`AlreadyJoined` by the uniqueness constraint. -/
theorem join_blocked_by_cancelled_row :
    joinEvent [(⟨1, 2, PStatus.cancelled, some 0, 0⟩ : Participation)] 1 2 0
      = .error .alreadyJoined ∧
    (([(⟨1, 2, PStatus.cancelled, some 0, 0⟩ : Participation)]).filter
      fun p => !(p.status == PStatus.cancelled)) = [] :=
  ⟨rfl, rfl⟩

/-- C8: under the storage uniqueness invariant (at most one row per pair),
leaving an event and immediately re-joining yields the same final ledger
as a single join on the initial ledger without the pair's row. -/
theorem leave_then_rejoin_fresh :
    ∀ (ps : List Participation) (e v : Nat) (now : Int) (r : Participation),
      r ∈ ps → r.event_id = e → r.volunteer_id = v →
      ps.countP (fun p => p.event_id == e && p.volunteer_id == v) ≤ 1 →
      joinEvent (leaveEvent ps e v) e v now = joinEvent (ps.erase r) e v now := by
  intro ps e v now r hmem h1 h2 hu
  unfold leaveEvent
  rw [filter_not_pair_eq_erase e v ps r hmem h1 h2 hu]

/-- Witness for C8 at a concrete input. -/
theorem leave_then_rejoin_fresh_witness :
    joinEvent (leaveEvent [(⟨1, 2, PStatus.joined, some 0, 5⟩ : Participation)] 1 2) 1 2 9
      = joinEvent (([(⟨1, 2, PStatus.joined, some 0, 5⟩ : Participation)]).erase
          ⟨1, 2, PStatus.joined, some 0, 5⟩) 1 2 9 :=
  leave_then_rejoin_fresh _ 1 2 9 _ (List.mem_singleton.mpr rfl) rfl rfl (by decide)

/-- C1 (amended): in both the admin event report and the events list,
`participant_count` counts ALL participation rows of the event regardless
of status — cancelled rows included — while `attended_count` counts
exactly the rows with status = attended. -/
theorem participant_count_counts_all_rows :
    ∀ (events : List Event) (ps : List Participation) (uid : Nat),
      (∀ r ∈ fetchEventReports events ps,
        r.participant_count = (ps.filter fun p => p.event_id == r.id).length ∧
        r.attended_count =
          (ps.filter fun p => p.event_id == r.id && p.status == PStatus.attended).length) ∧
      (∀ r ∈ fetchEventsAll events ps uid,
        r.participant_count = (ps.filter fun p => p.event_id == r.id).length) := by
  intro events ps uid
  constructor
  · intro r hr
    unfold fetchEventReports at hr
    obtain ⟨ev, _, rfl⟩ := List.mem_map.mp hr
    refine ⟨rfl, ?_⟩
    show ((ps.filter _).filter _).length = _
    rw [List.filter_filter]
    exact congrArg List.length (List.filter_congr fun a _ => by rw [Bool.and_comm])
  · intro r hr
    unfold fetchEventsAll at hr
    obtain ⟨ev, _, rfl⟩ := List.mem_map.mp hr
    rfl

/-- Witness for C1 at a concrete input: a report row of one event with a
single attended participation. -/
theorem participant_count_counts_all_rows_witness :
    (⟨1, "t", 0, "l", 1, 1⟩ : EventReport).participant_count
      = (([(⟨1, 2, PStatus.attended, some 0, 0⟩ : Participation)]).filter
          fun p => p.event_id == (⟨1, "t", 0, "l", 1, 1⟩ : EventReport).id).length :=
  ((participant_count_counts_all_rows [⟨1, "t", "d", 0, "l", 9⟩]
    [⟨1, 2, PStatus.attended, some 0, 0⟩] 0).1 _ (by decide)).1

/-- C1 as stated is refuted: an event whose only participation row is
CANCELLED is reported with `participant_count = 1`, although its number
of non-cancelled rows is 0. -/
theorem participant_count_cancelled_counted :
    (fetchEventReports [(⟨1, "", "", 0, "", 0⟩ : Event)]
        [(⟨1, 2, PStatus.cancelled, some 0, 0⟩ : Participation)]).map
      (fun r => r.participant_count) = [1] ∧
    (([(⟨1, 2, PStatus.cancelled, some 0, 0⟩ : Participation)]).filter
      fun p => !(p.status == PStatus.cancelled)).length = 0 :=
  ⟨rfl, rfl⟩

/-- The admin event report always carries `min 10 (number of events)`
records: the query is capped by `limit(10)`. -/
theorem fetchEventReports_length (events : List Event) (ps : List Participation) :
    (fetchEventReports events ps).length = min 10 events.length := by
  unfold fetchEventReports
  rw [List.length_map, List.length_take, List.length_insertionSort]

/-- C6 (amended): `fetchEventReports` emits one record per event only for
the at most 10 most recent events (`order('date', descending)` followed
by `limit(10)`); when the catalog holds at most 10 events, every event
appears with its title, schedule, location and counts. -/
theorem event_report_limited_to_ten :
    ∀ (events : List Event) (ps : List Participation),
      (fetchEventReports events ps).length = min 10 events.length ∧
      (events.length ≤ 10 → ∀ e ∈ events, ∃ r ∈ fetchEventReports events ps,
        r.id = e.id ∧ r.title = e.title ∧ r.date = e.date ∧ r.location = e.location ∧
        r.participant_count = (ps.filter fun p => p.event_id == e.id).length ∧
        r.attended_count =
          (ps.filter fun p => p.event_id == e.id && p.status == PStatus.attended).length) ∧
      ∃ kept omitted : List Event,
        (kept ++ omitted).Perm events ∧
        kept.length = min 10 events.length ∧
        (∀ e ∈ kept, ∀ e2 ∈ omitted, e2.date ≤ e.date) ∧
        List.Forall₂ (fun (r : EventReport) (e : Event) =>
            r.id = e.id ∧ r.title = e.title ∧ r.date = e.date ∧ r.location = e.location ∧
            r.participant_count = (ps.filter fun p => p.event_id == e.id).length ∧
            r.attended_count =
              (ps.filter fun p => p.event_id == e.id && p.status == PStatus.attended).length)
          (fetchEventReports events ps) kept := by
  intro events ps
  have hfields : ∀ e : Event,
      ((ps.filter fun p => p.event_id == e.id).filter
        fun p => p.status == PStatus.attended).length
      = (ps.filter fun p => p.event_id == e.id && p.status == PStatus.attended).length := by
    intro e
    rw [List.filter_filter]
    exact congrArg List.length (List.filter_congr fun a _ => by rw [Bool.and_comm])
  refine ⟨fetchEventReports_length events ps, ?_, ?_⟩
  · intro hlen e he
    have htake : (List.insertionSort dateDesc events).take 10
        = List.insertionSort dateDesc events :=
      List.take_of_length_le (by rw [List.length_insertionSort]; exact hlen)
    have hmem : e ∈ (List.insertionSort dateDesc events).take 10 := by
      rw [htake]
      exact (List.mem_insertionSort dateDesc).mpr he
    unfold fetchEventReports
    exact ⟨_, List.mem_map_of_mem _ hmem, rfl, rfl, rfl, rfl, rfl, hfields e⟩
  · refine ⟨(List.insertionSort dateDesc events).take 10,
      (List.insertionSort dateDesc events).drop 10, ?_, ?_, ?_, ?_⟩
    · rw [List.take_append_drop]
      exact List.perm_insertionSort dateDesc events
    · rw [List.length_take, List.length_insertionSort]
    · have hsp : List.Pairwise dateDesc
          ((List.insertionSort dateDesc events).take 10
            ++ (List.insertionSort dateDesc events).drop 10) := by
        rw [List.take_append_drop]
        exact List.sorted_insertionSort dateDesc events
      exact fun e he e2 he2 => (List.pairwise_append.mp hsp).2.2 e he e2 he2
    · exact forall₂_map_self _ _ _ fun e _ => ⟨rfl, rfl, rfl, rfl, rfl, hfields e⟩

/-- Witness for C6 at a concrete input: a one-event catalog is fully
reported. -/
theorem event_report_limited_to_ten_witness :
    ∃ r ∈ fetchEventReports [(⟨1, "t", "d", 0, "l", 2⟩ : Event)] ([] : List Participation),
      r.id = 1 := by
  obtain ⟨r, hr, h1, -⟩ := (event_report_limited_to_ten [⟨1, "t", "d", 0, "l", 2⟩] []).2.1
    (by decide) _ (List.mem_singleton.mpr rfl)
  exact ⟨r, hr, h1⟩

/-- C6 as stated is refuted: with 11 events in the catalog the report has
only 10 records, so one event is omitted. -/
theorem event_report_omits_eleventh_event :
    (fetchEventReports ((List.range 11).map fun i =>
        (⟨i, "", "", (i : Int), "", 0⟩ : Event)) []).length = 10 ∧
    ((List.range 11).map fun i => (⟨i, "", "", (i : Int), "", 0⟩ : Event)).length = 11 := by
  constructor
  · rw [fetchEventReports_length, List.length_map, List.length_range]
    omega
  · rw [List.length_map, List.length_range]

/-- C3: the attendance rate shown by the report is
`attended_count / participant_count` whenever `participant_count > 0` and
`0` for an event without participants; the guarded computation is total
(no division error can arise) and the rounded percentage stays within
0..100 whenever `attended_count ≤ participant_count`. -/
theorem attendance_rate_zero_safe :
    ∀ p a : Nat,
      attendanceRate 0 a = 0 ∧ attendancePercent 0 a = 0 ∧
      (0 < p → attendanceRate p a = (a : ℚ) / p ∧
        attendancePercent p a = round (attendanceRate p a * 100)) ∧
      (a ≤ p → 0 ≤ attendancePercent p a ∧ attendancePercent p a ≤ 100) := by
  intro p a
  refine ⟨by simp [attendanceRate], by simp [attendancePercent], ?_, ?_⟩
  · intro hp
    exact ⟨by simp [attendanceRate, hp], by simp [attendancePercent, attendanceRate, hp]⟩
  · intro hap
    rcases Nat.eq_zero_or_pos p with hp | hp
    · subst hp
      simp [attendancePercent]
    · have hq0 : (0 : ℚ) ≤ (a : ℚ) / p := by positivity
      have hq1 : ((a : ℚ) / p) ≤ 1 := by
        rw [div_le_one (by exact_mod_cast hp)]
        exact_mod_cast hap
      unfold attendancePercent
      rw [if_pos hp, round_eq]
      constructor
      · exact Int.le_floor.mpr (by push_cast; nlinarith)
      · have hlt : ((a : ℚ) / p) * 100 + 1 / 2 < ((101 : ℤ) : ℚ) := by
          push_cast; nlinarith
        have h2 := Int.floor_lt.mpr hlt
        omega

/-- Witness for C3 at a concrete input: 3 attendees out of 4 participants. -/
theorem attendance_rate_zero_safe_witness :
    attendanceRate 4 3 = ((3 : Nat) : ℚ) / ((4 : Nat) : ℚ) ∧
    0 ≤ attendancePercent 4 3 ∧ attendancePercent 4 3 ≤ 100 :=
  ⟨((attendance_rate_zero_safe 4 3).2.2.1 (by decide)).1,
   ((attendance_rate_zero_safe 4 3).2.2.2 (by decide)).1,
   ((attendance_rate_zero_safe 4 3).2.2.2 (by decide)).2⟩

/-- Accumulating `sum + (p.hours || 0)` over a list equals the initial
accumulator plus the sum of the coalesced hours. -/
theorem foldl_add_hours :
    ∀ (l : List Participation) (s : Int),
      l.foldl (fun s p => s + p.hours.getD 0) s = s + (l.map fun p => p.hours.getD 0).sum := by
  intro l
  induction l with
  | nil => intro s; simp
  | cons p t ih => intro s; simp [ih, add_assoc]

/-- A left fold of `max` returns its seed or one of the list elements. -/
theorem foldl_max_mem : ∀ (ts : List Int) (t : Int),
    ts.foldl max t = t ∨ ts.foldl max t ∈ ts := by
  intro ts
  induction ts with
  | nil => intro t; exact Or.inl rfl
  | cons a ts ih =>
    intro t
    rcases ih (max t a) with h | h
    · rcases max_choice t a with hm | hm
      · exact Or.inl (by rw [List.foldl_cons, h, hm])
      · exact Or.inr (by rw [List.foldl_cons, h, hm]; exact List.mem_cons_self a ts)
    · exact Or.inr (List.mem_cons_of_mem a h)

/-- The seed is bounded by a left fold of `max`. -/
theorem le_foldl_max_init : ∀ (ts : List Int) (t : Int), t ≤ ts.foldl max t := by
  intro ts
  induction ts with
  | nil => intro t; exact le_refl t
  | cons a ts ih =>
    intro t
    exact le_trans (le_max_left t a) (ih (max t a))

/-- Every list element is bounded by a left fold of `max`. -/
theorem le_foldl_max_of_mem : ∀ (ts : List Int) (t x : Int), x ∈ ts → x ≤ ts.foldl max t := by
  intro ts
  induction ts with
  | nil => intro t x hx; cases hx
  | cons a ts ih =>
    intro t x hx
    rcases List.mem_cons.mp hx with h | h
    · subst h
      exact le_trans (le_max_right t x) (le_foldl_max_init ts (max t x))
    · exact ih (max t a) x h

/-- On a non-empty list, `lastActivityOf` is the `created_at` of some row
and an upper bound of all rows. -/
theorem lastActivityOf_spec (l : List Participation) (h : l ≠ []) :
    (∃ p ∈ l, p.created_at = lastActivityOf l) ∧
    ∀ p ∈ l, p.created_at ≤ lastActivityOf l := by
  match l with
  | [] => exact absurd rfl h
  | q :: qs =>
    unfold lastActivityOf
    simp only [List.map_cons]
    constructor
    · rcases foldl_max_mem (qs.map fun p => p.created_at) q.created_at with hm | hm
      · exact ⟨q, List.mem_cons_self q qs, hm.symm⟩
      · obtain ⟨p, hp, hpc⟩ := List.mem_map.mp hm
        exact ⟨p, List.mem_cons_of_mem q hp, hpc⟩
    · intro p hp
      rcases List.mem_cons.mp hp with h | h
      · subst h
        exact le_foldl_max_init _ _
      · exact le_foldl_max_of_mem _ _ _ (List.mem_map_of_mem _ h)

/-- C4 (amended): for every volunteer account the report emits the
JS-coalesced name (`name || email`), the email, the number of ALL their
participation rows regardless of status (cancelled included), the
`|| 0`-coalesced sum of hours over all their rows, and the `created_at`
of their most recent row — `none` (rendered `Never`) exactly when they
have no rows, under the code's encoding of `never` as timestamp 0 (all
real timestamps are positive). -/
theorem volunteer_report_fields :
    ∀ (users : List UserRow) (ps : List Participation),
      (∀ p ∈ ps, 0 < p.created_at) →
      ∀ u ∈ users, u.role = Role.volunteer →
        ∃ r ∈ fetchVolunteerReports users ps,
          r.id = u.id ∧ r.name = jsOr u.name u.email ∧ r.email = u.email ∧
          r.total_events = (ps.filter fun p => p.volunteer_id == u.id).length ∧
          r.total_hours =
            ((ps.filter fun p => p.volunteer_id == u.id).map fun p => p.hours.getD 0).sum ∧
          (r.last_activity = none ↔ (ps.filter fun p => p.volunteer_id == u.id) = []) ∧
          (∀ t, r.last_activity = some t →
            (∃ p ∈ ps, p.volunteer_id = u.id ∧ p.created_at = t) ∧
            ∀ p ∈ ps, p.volunteer_id = u.id → p.created_at ≤ t) := by
  intro users ps hpos u hu hrole
  have humem : u ∈ List.insertionSort nameAsc (users.filter fun u => u.role == Role.volunteer) :=
    (List.mem_insertionSort nameAsc).mpr (List.mem_filter.mpr ⟨hu, by simp [hrole]⟩)
  refine ⟨_, List.mem_map_of_mem _ humem, rfl, rfl, rfl, rfl, ?_, ?_, ?_⟩
  · show sumHours _ = _
    unfold sumHours
    rw [foldl_add_hours, zero_add]
  · by_cases hP : (ps.filter fun p => p.volunteer_id == u.id) = []
    · simp [hP]
    · have hpos' : 0 < lastActivityOf (ps.filter fun p => p.volunteer_id == u.id) := by
        obtain ⟨⟨p, hp, hpc⟩, -⟩ := lastActivityOf_spec _ hP
        exact hpc ▸ hpos p (List.mem_filter.mp hp).1
      have hne : (ps.filter fun p => p.volunteer_id == u.id).isEmpty = false := by
        simpa [List.isEmpty_iff] using hP
      show (if 0 < (if (ps.filter fun p => p.volunteer_id == u.id).isEmpty then 0
          else lastActivityOf (ps.filter fun p => p.volunteer_id == u.id))
          then some _ else none) = none ↔ _
      rw [hne]
      simp only [Bool.false_eq_true, if_false, hpos', if_pos]
      simp [hP]
  · intro t ht
    by_cases hP : (ps.filter fun p => p.volunteer_id == u.id) = []
    · exact absurd ht (by simp [hP])
    · have hne : (ps.filter fun p => p.volunteer_id == u.id).isEmpty = false := by
        simpa [List.isEmpty_iff] using hP
      have ht' : (if 0 < (if (ps.filter fun p => p.volunteer_id == u.id).isEmpty then 0
          else lastActivityOf (ps.filter fun p => p.volunteer_id == u.id))
          then some (if (ps.filter fun p => p.volunteer_id == u.id).isEmpty then (0 : Int)
          else lastActivityOf (ps.filter fun p => p.volunteer_id == u.id)) else none)
          = some t := ht
      rw [hne] at ht'
      simp only [Bool.false_eq_true, if_false] at ht'
      have hteq : lastActivityOf (ps.filter fun p => p.volunteer_id == u.id) = t := by
        by_cases hlt : 0 < lastActivityOf (ps.filter fun p => p.volunteer_id == u.id)
        · rw [if_pos hlt] at ht'
          exact Option.some.inj ht'
        · rw [if_neg hlt] at ht'
          exact absurd ht' (by simp)
      obtain ⟨⟨p, hp, hpc⟩, hub⟩ := lastActivityOf_spec _ hP
      constructor
      · obtain ⟨hp1, hp2⟩ := List.mem_filter.mp hp
        exact ⟨p, hp1, by simpa using hp2, hpc.trans hteq⟩
      · intro q hq hqv
        exact hteq ▸ hub q (List.mem_filter.mpr ⟨hq, by simp [hqv]⟩)

/-- Witness for C4 at a concrete input: one volunteer with one joined
2-hour participation. -/
theorem volunteer_report_fields_witness :
    ∃ r ∈ fetchVolunteerReports [(⟨3, "a", some "A", Role.volunteer⟩ : UserRow)]
        [(⟨1, 3, PStatus.joined, some 2, 5⟩ : Participation)],
      r.total_events = 1 ∧ r.total_hours = 2 := by
  obtain ⟨r, hr, -, -, -, h4, h5, -⟩ :=
    volunteer_report_fields [⟨3, "a", some "A", Role.volunteer⟩]
      [⟨1, 3, PStatus.joined, some 2, 5⟩] (by decide) _ (List.mem_singleton.mpr rfl) rfl
  exact ⟨r, hr, h4.trans (by decide), h5.trans (by decide)⟩

/-- C4 as stated is refuted: a volunteer whose only participation row is
CANCELLED is reported with `total_events = 1`, although their number of
non-cancelled participations is 0. -/
theorem volunteer_report_counts_cancelled :
    (fetchVolunteerReports [(⟨3, "a", some "A", Role.volunteer⟩ : UserRow)]
        [(⟨1, 3, PStatus.cancelled, some 0, 5⟩ : Participation)]).map
      (fun r => r.total_events) = [1] ∧
    (([(⟨1, 3, PStatus.cancelled, some 0, 5⟩ : Participation)]).filter
      fun p => !(p.status == PStatus.cancelled)).length = 0 :=
  ⟨rfl, rfl⟩

/-- C5 (amended): the `joined` filter of the events screen does not
restrict which events are returned — the `.eq` filters act on the
embedded rows of the `!left` join only, so the view still lists every
event of the catalog; an event is flagged `is_joined` exactly when the
volunteer has a row with status `joined` for it (an `attended` row does
not count). -/
theorem joined_view_returns_all_events :
    ∀ (events : List Event) (ps : List Participation) (uid : Nat),
      ((fetchEventsJoined events ps uid).map EventView.id).Perm (events.map Event.id) ∧
      ∀ r ∈ fetchEventsJoined events ps uid,
        (r.is_joined = true ↔ ∃ p ∈ ps,
          p.event_id = r.id ∧ p.volunteer_id = uid ∧ p.status = PStatus.joined) := by
  intro events ps uid
  constructor
  · unfold fetchEventsJoined
    rw [List.map_map]
    exact (List.perm_insertionSort dateAsc events).map Event.id
  · intro r hr
    unfold fetchEventsJoined at hr
    obtain ⟨ev, -, rfl⟩ := List.mem_map.mp hr
    show (List.any _ _) = true ↔ _
    simp only [List.any_eq_true, List.mem_filter, Bool.and_eq_true, beq_iff_eq]
    tauto

/-- Witness for C5 at a concrete input: an event the volunteer joined is
flagged `is_joined`. -/
theorem joined_view_returns_all_events_witness :
    ((⟨7, "", "", 0, "", 1, 1, true⟩ : EventView).is_joined = true) ↔
      ∃ p ∈ ([(⟨7, 2, PStatus.joined, some 0, 0⟩ : Participation)]),
        p.event_id = 7 ∧ p.volunteer_id = 2 ∧ p.status = PStatus.joined :=
  (joined_view_returns_all_events [⟨7, "", "", 0, "", 1⟩]
    [⟨7, 2, PStatus.joined, some 0, 0⟩] 2).2 _ (by decide)

/-- C5 as stated is refuted: with an empty participation table — so no
volunteer has joined or attended anything — the `joined` view still
returns the catalog's event instead of the empty list. -/
theorem joined_view_nonempty_without_rows :
    (fetchEventsJoined [(⟨7, "", "", 0, "", 1⟩ : Event)] ([] : List Participation) 0).map
      EventView.id = [7] :=
  rfl

/-- C7 (amended): `markAsRead` under row-level security never fails with
`Forbidden`: when no row with the given id belongs to the actor the
update silently changes nothing; when the actor is the recipient the
row's read flag is set to true, and repeating the call leaves the state
unchanged (idempotent). -/
theorem mark_read_rls_semantics :
    ∀ (ns : List Notification) (nid actor : Nat) (out : List Notification),
      markAsRead ns nid actor = .ok out →
      ((∀ n ∈ ns, n.id = nid → n.user_id ≠ actor) → out = ns) ∧
      (∀ n ∈ ns, n.id = nid → n.user_id = actor →
        { n with read_status := true } ∈ out) ∧
      markAsRead out nid actor = .ok out := by
  intro ns nid actor out h
  unfold markAsRead at h
  rw [Except.ok.injEq] at h
  subst h
  refine ⟨?_, ?_, ?_⟩
  · intro hno
    have hid : ∀ n ∈ ns,
        (if n.id == nid && n.user_id == actor then { n with read_status := true } else n) = n := by
      intro n hn
      by_cases h1 : n.id = nid
      · have h2 := hno n hn h1
        simp [h1, h2]
      · simp [h1]
    rw [List.map_congr_left hid, List.map_id']
  · intro n hn h1 h2
    have := List.mem_map_of_mem
      (fun n => if n.id == nid && n.user_id == actor then { n with read_status := true } else n) hn
    simpa [h1, h2] using this
  · unfold markAsRead
    rw [Except.ok.injEq, List.map_map]
    refine List.map_congr_left fun n hn => ?_
    by_cases hc : (n.id == nid && n.user_id == actor) = true <;>
      simp [Function.comp, hc]

/-- Witness for C7 at a concrete input: the recipient marks their own
notification read. -/
theorem mark_read_rls_semantics_witness :
    ({ (⟨0, 1, "m", false, 0⟩ : Notification) with read_status := true })
      ∈ ([(⟨0, 1, "m", true, 0⟩ : Notification)]) :=
  (mark_read_rls_semantics [⟨0, 1, "m", false, 0⟩] 0 1 [⟨0, 1, "m", true, 0⟩] rfl).2.1
    _ (List.mem_singleton.mpr rfl) rfl rfl

/-- C7 as stated is refuted: a markRead by a non-recipient does not fail
with `Forbidden` — the RLS-filtered update succeeds and leaves the row
unchanged. -/
theorem mark_read_non_recipient_silent :
    markAsRead [(⟨0, 1, "m", false, 0⟩ : Notification)] 0 2
      = .ok [(⟨0, 1, "m", false, 0⟩ : Notification)] ∧
    markAsRead [(⟨0, 1, "m", false, 0⟩ : Notification)] 0 2
      ≠ .error DbError.forbidden :=
  ⟨rfl, fun h => Except.noConfusion h⟩

/-- C9: the dashboard's active-volunteer figure is the number of distinct
volunteer ids having at least one participation row created within the
trailing 30 days (in milliseconds) from now. -/
theorem active_volunteers_distinct_window :
    ∀ (ps : List Participation) (now : Int),
      activeVolunteers ps now = (activeVolunteerIds ps now).toFinset.card ∧
      ∀ v, v ∈ (activeVolunteerIds ps now).toFinset ↔
        ∃ p ∈ ps, p.volunteer_id = v ∧ now - 30 * 24 * 60 * 60 * 1000 ≤ p.created_at := by
  intro ps now
  constructor
  · rw [List.card_toFinset]
    rfl
  · intro v
    simp only [List.mem_toFinset, activeVolunteerIds, List.mem_map, List.mem_filter,
      decide_eq_true_eq]
    constructor
    · rintro ⟨p, ⟨hp, hw⟩, rfl⟩
      exact ⟨p, hp, rfl, hw⟩
    · rintro ⟨p, hp, rfl, hw⟩
      exact ⟨p, ⟨hp, hw⟩, rfl⟩

/-- C10: the notification context works on at most the 50 most recent
notifications of the user, newest first; with 51 unread notifications in
the table the reported unread count is 50 while the true unread count is
51 — older notifications are excluded. -/
theorem notification_window_fifty :
    (∀ (ns : List Notification) (uid : Nat),
      (fetchNotifications ns uid).length ≤ 50 ∧
      (∀ n ∈ fetchNotifications ns uid, n.user_id = uid) ∧
      List.Sorted newerFirst (fetchNotifications ns uid)) ∧
    unreadCount (fetchNotifications manyUnread 0) = 50 ∧
    trueUnreadCount manyUnread 0 = 51 := by
  refine ⟨?_, ?_, ?_⟩
  · intro ns uid
    refine ⟨List.length_take_le 50 _, ?_, ?_⟩
    · intro n hn
      have h1 := List.mem_of_mem_take hn
      have h2 := (List.mem_insertionSort newerFirst).mp h1
      have h3 := (List.mem_filter.mp h2).2
      simpa using h3
    · exact (List.sorted_insertionSort newerFirst _).sublist (List.take_sublist 50 _)
  · have hfilter : manyUnread.filter (fun n => n.user_id == 0) = manyUnread :=
      List.filter_eq_self.mpr (by
        intro n hn
        obtain ⟨i, -, rfl⟩ := List.mem_map.mp hn
        rfl)
    have hall : ∀ n ∈ (List.insertionSort newerFirst
        (manyUnread.filter fun n => n.user_id == 0)).take 50, (!n.read_status) = true := by
      intro n hn
      have h1 := (List.mem_insertionSort newerFirst).mp (List.mem_of_mem_take hn)
      rw [hfilter] at h1
      obtain ⟨i, -, rfl⟩ := List.mem_map.mp h1
      rfl
    unfold unreadCount fetchNotifications
    rw [List.filter_eq_self.mpr hall, List.length_take, List.length_insertionSort, hfilter]
    rw [show manyUnread.length = 51 by
      unfold manyUnread; rw [List.length_map, List.length_range]]
    omega
  · unfold trueUnreadCount
    rw [List.filter_eq_self.mpr (by
      intro n hn
      obtain ⟨i, -, rfl⟩ := List.mem_map.mp hn
      rfl)]
    unfold manyUnread
    rw [List.length_map, List.length_range]

/-- Witness for C10 at a concrete input: the single fetched notification
belongs to the requesting user. -/
theorem notification_window_fifty_witness :
    (⟨0, 3, "m", false, 0⟩ : Notification).user_id = 3 :=
  (notification_window_fifty.1 [⟨0, 3, "m", false, 0⟩] 3).2.1 _ (by decide)
